import Mathlib

/-!
Verification development for the `lazydiff` terminal diff viewer.

The Rust sources are embedded shallowly:

* `src/diff.rs` — `generate_diff`, `generate_patch` (pure string/list code);
* `src/app.rs` — the `App` session state and its methods (`regenerate_diff`,
  `scroll_up`, `scroll_down`, `toggle_selection_anchor`, `get_selection_range`);
* `src/main.rs` — the startup dispatch over the optional path arguments.

File-system reads, the clipboard handle and the file browser are external
resources; reads are passed in as `Except` values, the handles (which no
claim mentions) are omitted from the state record.

The line differ `similar::TextDiff::from_lines` is an external crate.  It is
modelled here, faithfully to its contract, as a longest-common-subsequence
edit script over the newline-inclusive line tokens of the two inputs: every
token of the source appears exactly once tagged `equal` or `delete`, every
token of the target exactly once tagged `equal` or `insert`, in input order.
`rustLines` models Rust's `str::lines` (split on a newline terminator,
dropping a final empty segment, stripping one carriage return that precedes
a stripped newline).
-/

namespace LazyDiff

/-- Model of `similar::ChangeTag` (variants `Equal`, `Delete`, `Insert`). -/
inductive ChangeTag where
  | equal
  | delete
  | insert
deriving DecidableEq, BEq, Repr

/-- Model of `DiffLine` from `src/diff.rs`: one physical line of the diff,
with the tag of the change group it came from. -/
structure DiffLine where
  tag : ChangeTag
  content : String
deriving DecidableEq, Repr

/-- Split a character list into chunks, each chunk ending with the newline
character that closed it; a final chunk without a newline is kept, and no
empty final chunk is produced.  This is the newline-inclusive tokenization
both `str::lines` and `similar`'s line tokenizer are built on. -/
def splitNl : List Char → List (List Char)
  | [] => []
  | c :: cs =>
    if c = '\n' then [c] :: splitNl cs
    else
      match splitNl cs with
      | [] => [[c]]
      | t :: ts => (c :: t) :: ts

/-- Strip one trailing newline, and one carriage return directly before it,
from a line token.  Mirrors what Rust's `str::lines` removes from each
chunk: the carriage return is only stripped when a newline was stripped. -/
def stripEol (t : List Char) : List Char :=
  match t.getLast? with
  | some c =>
    if c = '\n' then
      let t1 := t.dropLast
      if t1.getLast? = some '\r' then t1.dropLast else t1
    else t
  | none => t

/-- Model of Rust's `str::lines`: the newline-inclusive chunks with their
line endings stripped. -/
def rustLines (s : String) : List String :=
  (splitNl s.data).map (fun t => String.mk (stripEol t))

/-- Length of a longest common subsequence, used by the modelled differ to
choose between deleting from the source and inserting from the target. -/
def lcsLen : List String → List String → Nat
  | [], _ => 0
  | _ :: _, [] => 0
  | a :: as, b :: bs =>
    if a = b then lcsLen as bs + 1
    else max (lcsLen (a :: as) bs) (lcsLen as (b :: bs))
termination_by l₁ l₂ => l₁.length + l₂.length

/-- Modelled from the spec: the Line Differ collaborator
(`similar::TextDiff`, an external crate, §2 of the spec: an ordered
sequence of (status, block) pairs).  An LCS edit script: tokens equal in
both inputs are emitted once as `equal`; otherwise the source token is
emitted as `delete` or the target token as `insert`. -/
def diffTokens : List String → List String → List (ChangeTag × String)
  | [], [] => []
  | [], b :: bs => (.insert, b) :: diffTokens [] bs
  | a :: as, [] => (.delete, a) :: diffTokens as []
  | a :: as, b :: bs =>
    if a = b then (.equal, a) :: diffTokens as bs
    else if lcsLen (a :: as) bs ≤ lcsLen as (b :: bs) then
      (.delete, a) :: diffTokens as (b :: bs)
    else
      (.insert, b) :: diffTokens (a :: as) bs
termination_by l₁ l₂ => l₁.length + l₂.length

/-- Model of `similar::TextDiff::from_lines` followed by
`iter_all_changes`: the edit script over newline-inclusive line tokens,
each change carrying its token text as `change.value()`. -/
def textDiff_from_lines (source_content target_content : String) :
    List (ChangeTag × String) :=
  diffTokens ((splitNl source_content.data).map String.mk)
    ((splitNl target_content.data).map String.mk)

/-- Model of `generate_diff` from `src/diff.rs`: for every change of the
differ, split the change value with `str::lines` and emit one `DiffLine`
per physical line, keeping the change's tag. -/
def generate_diff (source_content target_content : String) : List DiffLine :=
  (textDiff_from_lines source_content target_content).flatMap
    (fun change => (rustLines change.2).map (fun line => DiffLine.mk change.1 line))

/-- The prefix written before a body line of the patch, from the `match` in
`generate_patch` (`src/diff.rs`). -/
def tagMark : ChangeTag → String
  | .delete => "-"
  | .insert => "+"
  | .equal => " "

/-- Model of `generate_patch` from `src/diff.rs`: the two header lines,
then one prefixed line per selected entry.  The range case mirrors
`diff_lines.iter().enumerate().filter(|(i, _)| *i >= start && *i <= end)`. -/
def generate_patch (source_file target_file : String)
    (diff_lines : List DiffLine) (line_range : Option (Nat × Nat)) : String :=
  let header := ("--- " ++ source_file ++ "\n") ++ ("+++ " ++ target_file ++ "\n")
  let lines_to_include : List DiffLine :=
    match line_range with
    | some (start, stop) =>
      ((diff_lines.enum).filter (fun p => start ≤ p.1 && p.1 ≤ stop)).map Prod.snd
    | none => diff_lines
  lines_to_include.foldl (fun patch d => patch ++ (tagMark d.tag ++ d.content ++ "\n")) header

/-- Model of `AppMode` from `src/app.rs`. -/
inductive AppMode where
  | DiffView
  | SelectingSource
  | SelectingTarget
  | SelectionMode
deriving DecidableEq, Repr

/-- Model of the `App` session state from `src/app.rs`.  The `clipboard`
and `file_browser` fields are external OS handles and are omitted; no claim
mentions them. -/
structure App where
  source_file : String
  target_file : String
  diff_lines : List DiffLine
  scroll_offset : Nat
  cursor_position : Nat
  status_message : Option String
  mode : AppMode
  selection_start : Option Nat
  selection_end : Option Nat
deriving DecidableEq, Repr

/-- Model of `App::regenerate_diff` (`src/app.rs`).  The two
`fs::read_to_string` results are passed in as `Except` values; the pair
returned models `(&mut self` after the call`, io::Result)`: each failing
read returns early through `?`, before any field of `self` is written. -/
def regenerate_diff (app : App) (readSource readTarget : Except String String) :
    App × Except String Unit :=
  match readSource with
  | .error e => (app, .error e)
  | .ok source_content =>
    match readTarget with
    | .error e => (app, .error e)
    | .ok target_content =>
      ({ app with
          diff_lines := generate_diff source_content target_content,
          scroll_offset := 0 },
        .ok ())

/-- Model of `App::scroll_up` (`src/app.rs`). -/
def scroll_up (app : App) : App :=
  if app.scroll_offset > 0 then
    { app with scroll_offset := app.scroll_offset - 1 }
  else app

/-- Model of `App::scroll_down` (`src/app.rs`). -/
def scroll_down (app : App) (max_visible_lines : Nat) : App :=
  if app.scroll_offset + max_visible_lines < app.diff_lines.length then
    { app with scroll_offset := app.scroll_offset + 1 }
  else app

/-- Model of `App::toggle_selection_anchor` (`src/app.rs`): with no anchor,
both anchors are placed at the cursor; with an anchor already set, only the
status message is written. -/
def toggle_selection_anchor (app : App) : App :=
  match app.selection_start with
  | none =>
    { app with
        selection_start := some app.cursor_position,
        selection_end := some app.cursor_position,
        status_message :=
          some ("Selection start: line " ++ toString app.cursor_position) }
  | some start =>
    { app with
        status_message :=
          some ("Selection: lines " ++ toString (min start app.cursor_position)
            ++ "-" ++ toString (max start app.cursor_position)
            ++ " (" ++ toString (((start : Int) - (app.cursor_position : Int)).natAbs + 1)
            ++ " lines selected)") }

/-- Model of `App::get_selection_range` (`src/app.rs`). -/
def get_selection_range (app : App) : Option (Nat × Nat) :=
  match app.selection_start, app.selection_end with
  | some start, some stop => some (min start stop, max start stop)
  | _, _ => none

/-- The two scroll inputs handled by `handle_diffview_input`
(`src/app.rs`): the up and down arrow keys. -/
inductive ScrollInput where
  | up
  | down
deriving DecidableEq, Repr

/-- One DiffView scroll key: up runs `App::scroll_up`, down runs
`App::scroll_down` with the viewport height computed from the terminal. -/
def scrollStep (max_visible_lines : Nat) (app : App) : ScrollInput → App
  | .up => scroll_up app
  | .down => scroll_down app max_visible_lines

/-- A finite sequence of DiffView scroll keys applied in order. -/
def runScroll (max_visible_lines : Nat) (app : App) (inputs : List ScrollInput) : App :=
  inputs.foldl (scrollStep max_visible_lines) app

/-- What `main` (`src/main.rs`) does before any interactive UI exists:
either it proceeds to the diff view with the two validated paths, or it
prints a message and exits with a non-zero code. -/
inductive StartupOutcome where
  | runDiffView (source target : String)
  | exitError (message : String)
deriving DecidableEq, Repr

/-- Model of the argument dispatch in `main` (`src/main.rs`, the `match`
over `(&args.source, &args.target)`).  `validate_file` touches the file
system, so its two results are passed in as `Except` values; a branch that
never reaches a validation ignores the corresponding argument. -/
def mainDispatch (source target : Option String)
    (validateSource validateTarget : Except String Unit) : StartupOutcome :=
  match source, target with
  | some s, some t =>
    match validateSource with
    | .error e => .exitError ("Error: " ++ e)
    | .ok _ =>
      match validateTarget with
      | .error e => .exitError ("Error: " ++ e)
      | .ok _ => .runDiffView s t
  | some s, none =>
    match validateSource with
    | .error e => .exitError ("Error: " ++ e)
    | .ok _ => .exitError ("Source file: " ++ s ++ ", target file not specified")
  | none, some t =>
    match validateTarget with
    | .error e => .exitError ("Error: " ++ e)
    | .ok _ => .exitError ("Target file: " ++ t ++ ", source file not specified")
  | none, none => .exitError "No files specified. Usage: lazydiff <source> <target>"

/-- Helper recognizing the chunks `splitNl` produces: nonempty, with a
newline allowed only as the final character. -/
def isLineTokenB : List Char → Bool
  | [] => false
  | [_] => true
  | c :: c2 :: cs => (c != '\n') && isLineTokenB (c2 :: cs)

/-- A concrete mid-session state: scrolled, cursor moved, a selection
anchored.  Used to evaluate the state operations at a concrete input. -/
def sampleApp : App :=
  { source_file := "old.txt"
    target_file := "new.txt"
    diff_lines := [⟨.equal, "Line 1"⟩, ⟨.delete, "Line 2"⟩, ⟨.insert, "Line 2 modified"⟩]
    scroll_offset := 2
    cursor_position := 3
    status_message := none
    mode := .DiffView
    selection_start := some 1
    selection_end := some 2 }

/-- A concrete freshly-built DiffView state (all offsets zero, no
selection), as `App::new` produces. -/
def freshApp : App :=
  { source_file := "old.txt"
    target_file := "new.txt"
    diff_lines := [⟨.equal, "Line 1"⟩, ⟨.delete, "Line 2"⟩, ⟨.insert, "Line 2 modified"⟩]
    scroll_offset := 0
    cursor_position := 0
    status_message := none
    mode := .DiffView
    selection_start := none
    selection_end := none }

/-- A concrete SelectionMode state with no anchor placed yet. -/
def selApp : App :=
  { source_file := "old.txt"
    target_file := "new.txt"
    diff_lines := [⟨.equal, "Line 1"⟩, ⟨.delete, "Line 2"⟩, ⟨.insert, "Line 2 modified"⟩]
    scroll_offset := 1
    cursor_position := 2
    status_message := none
    mode := .SelectionMode
    selection_start := none
    selection_end := none }

/-- A concrete SelectionMode state whose anchor is already placed. -/
def selAppAnchored : App :=
  { selApp with selection_start := some 2, selection_end := some 1, cursor_position := 1 }

/-! ### Properties of the line tokenization -/

theorem mem_splitNl_isLineToken : ∀ {l t : List Char}, t ∈ splitNl l → isLineTokenB t = true := by
  intro l
  induction l with
  | nil => intro t ht; simp [splitNl] at ht
  | cons c cs ih =>
    intro t ht
    by_cases hc : c = '\n'
    · subst hc
      rw [splitNl, if_pos rfl] at ht
      rw [List.mem_cons] at ht
      cases ht with
      | inl h1 => subst h1; rfl
      | inr h2 => exact ih h2
    · rw [splitNl, if_neg hc] at ht
      cases hsplit : splitNl cs with
      | nil =>
        rw [hsplit] at ht
        simp only [List.mem_singleton] at ht
        subst ht; rfl
      | cons t0 ts =>
        rw [hsplit] at ht
        rw [List.mem_cons] at ht
        cases ht with
        | inl h1 =>
          subst h1
          have ht0 : isLineTokenB t0 = true := ih (hsplit ▸ List.mem_cons_self t0 ts)
          cases t0 with
          | nil => simp [isLineTokenB] at ht0
          | cons t0h t0t =>
            simp only [isLineTokenB, Bool.and_eq_true]
            exact ⟨by simp [bne, hc], ht0⟩
        | inr h2 => exact ih (hsplit ▸ List.mem_cons_of_mem t0 h2)

theorem splitNl_of_isLineToken : ∀ (t : List Char), isLineTokenB t = true → splitNl t = [t] := by
  intro t
  induction t with
  | nil => intro h; simp [isLineTokenB] at h
  | cons c cs ih =>
    intro h
    cases cs with
    | nil =>
      by_cases hc : c = '\n'
      · subst hc; rfl
      · simp [splitNl, hc]
    | cons c2 cs2 =>
      simp only [isLineTokenB, Bool.and_eq_true, bne_iff_ne, ne_eq] at h
      have hrest : splitNl (c2 :: cs2) = [c2 :: cs2] := ih h.2
      rw [splitNl, if_neg h.1, hrest]

theorem rustLines_of_token (t : List Char) (h : isLineTokenB t = true) :
    rustLines (String.mk t) = [String.mk (stripEol t)] := by
  show ((splitNl (String.mk t).data).map (fun u => String.mk (stripEol u))) = _
  rw [show (String.mk t).data = t from rfl, splitNl_of_isLineToken t h]
  rfl

theorem flatMap_eq_map_of_singleton {α β : Type} (f : α → List β) (g : α → β) :
    ∀ (l : List α), (∀ t ∈ l, f t = [g t]) → l.flatMap f = l.map g := by
  intro l
  induction l with
  | nil => intro _; rfl
  | cons a t ih =>
    intro h
    simp only [List.flatMap_cons, List.map_cons, h a (List.mem_cons_self a t),
      ih (fun x hx => h x (List.mem_cons_of_mem a hx)), List.singleton_append]

theorem flatMap_rustLines_splitNl (s : String) :
    ((splitNl s.data).map String.mk).flatMap rustLines = rustLines s := by
  have h1 : ((splitNl s.data).map String.mk).flatMap rustLines
      = (splitNl s.data).flatMap (fun t => rustLines (String.mk t)) := by
    rw [List.flatMap_map]
  rw [h1]
  rw [flatMap_eq_map_of_singleton (fun t => rustLines (String.mk t))
    (fun t => String.mk (stripEol t)) (splitNl s.data)
    (fun t ht => rustLines_of_token t (mem_splitNl_isLineToken ht))]
  rfl

/-! ### The modelled differ is a valid edit script -/

theorem diffTokens_keep_source : ∀ (as bs : List String),
    ((diffTokens as bs).filter
      (fun c => c.1 == ChangeTag.equal || c.1 == ChangeTag.delete)).map Prod.snd = as := by
  intro as bs
  induction as, bs using diffTokens.induct with
  | case1 => simp [diffTokens]
  | case2 b bs ih => simp only [diffTokens, List.filter_cons]; simp +decide [ih]
  | case3 a as ih => simp only [diffTokens, List.filter_cons]; simp +decide [ih]
  | case4 as b bs ih =>
    simp only [diffTokens, if_pos rfl, List.filter_cons]; simp +decide [ih]
  | case5 a as b bs hne hle ih =>
    simp only [diffTokens, if_neg hne, if_pos hle, List.filter_cons]
    simp +decide [ih]
  | case6 a as b bs hne hnle ih =>
    simp only [diffTokens, if_neg hne, if_neg hnle, List.filter_cons]
    simp +decide [ih]

theorem diffTokens_keep_target : ∀ (as bs : List String),
    ((diffTokens as bs).filter
      (fun c => c.1 == ChangeTag.equal || c.1 == ChangeTag.insert)).map Prod.snd = bs := by
  intro as bs
  induction as, bs using diffTokens.induct with
  | case1 => simp [diffTokens]
  | case2 b bs ih => simp only [diffTokens, List.filter_cons]; simp +decide [ih]
  | case3 a as ih => simp only [diffTokens, List.filter_cons]; simp +decide [ih]
  | case4 as b bs ih =>
    simp only [diffTokens, if_pos rfl, List.filter_cons]; simp +decide [ih]
  | case5 a as b bs hne hle ih =>
    simp only [diffTokens, if_neg hne, if_pos hle, List.filter_cons]
    simp +decide [ih]
  | case6 a as b bs hne hnle ih =>
    simp only [diffTokens, if_neg hne, if_neg hnle, List.filter_cons]
    simp +decide [ih]

/-! ### Pushing the status filter through the per-line emission -/

theorem filter_tag_flatMap (p : ChangeTag → Bool) (changes : List (ChangeTag × String)) :
    ((changes.flatMap
        (fun change => (rustLines change.2).map (fun line => DiffLine.mk change.1 line))).filter
      (fun d => p d.tag)).map DiffLine.content
    = (changes.filter (fun c => p c.1)).flatMap (fun c => rustLines c.2) := by
  induction changes with
  | nil => rfl
  | cons c cs ih =>
    simp only [List.flatMap_cons, List.filter_append, List.map_append, ih, List.filter_cons]
    cases hp : p c.1 with
    | false => simp [List.filter_map, Function.comp_def, hp]
    | true => simp [List.filter_map, Function.comp_def, hp]

/-- C1: for all source and target texts, the entries of `generate_diff`
whose status is Unchanged or Removed list exactly the lines of the source,
in order, and the entries whose status is Unchanged or Added list exactly
the lines of the target; a trailing line without a terminating newline is
emitted exactly once. -/
theorem generate_diff_reconstructs (A B : String) :
    ((generate_diff A B).filter
        (fun d => d.tag == ChangeTag.equal || d.tag == ChangeTag.delete)).map DiffLine.content
      = rustLines A
    ∧ ((generate_diff A B).filter
        (fun d => d.tag == ChangeTag.equal || d.tag == ChangeTag.insert)).map DiffLine.content
      = rustLines B := by
  constructor
  · have hkept : ((textDiff_from_lines A B).filter
        (fun c => c.1 == ChangeTag.equal || c.1 == ChangeTag.delete)).map Prod.snd
        = (splitNl A.data).map String.mk :=
      diffTokens_keep_source ((splitNl A.data).map String.mk) ((splitNl B.data).map String.mk)
    calc ((generate_diff A B).filter
        (fun d => d.tag == ChangeTag.equal || d.tag == ChangeTag.delete)).map DiffLine.content
        = ((textDiff_from_lines A B).filter
            (fun c => c.1 == ChangeTag.equal || c.1 == ChangeTag.delete)).flatMap
              (fun c => rustLines c.2) :=
          filter_tag_flatMap (fun tag => tag == ChangeTag.equal || tag == ChangeTag.delete)
            (textDiff_from_lines A B)
      _ = (((textDiff_from_lines A B).filter
            (fun c => c.1 == ChangeTag.equal || c.1 == ChangeTag.delete)).map Prod.snd).flatMap
              rustLines := by rw [List.flatMap_map]
      _ = ((splitNl A.data).map String.mk).flatMap rustLines := by rw [hkept]
      _ = rustLines A := flatMap_rustLines_splitNl A
  · have hkept : ((textDiff_from_lines A B).filter
        (fun c => c.1 == ChangeTag.equal || c.1 == ChangeTag.insert)).map Prod.snd
        = (splitNl B.data).map String.mk :=
      diffTokens_keep_target ((splitNl A.data).map String.mk) ((splitNl B.data).map String.mk)
    calc ((generate_diff A B).filter
        (fun d => d.tag == ChangeTag.equal || d.tag == ChangeTag.insert)).map DiffLine.content
        = ((textDiff_from_lines A B).filter
            (fun c => c.1 == ChangeTag.equal || c.1 == ChangeTag.insert)).flatMap
              (fun c => rustLines c.2) :=
          filter_tag_flatMap (fun tag => tag == ChangeTag.equal || tag == ChangeTag.insert)
            (textDiff_from_lines A B)
      _ = (((textDiff_from_lines A B).filter
            (fun c => c.1 == ChangeTag.equal || c.1 == ChangeTag.insert)).map Prod.snd).flatMap
              rustLines := by rw [List.flatMap_map]
      _ = ((splitNl B.data).map String.mk).flatMap rustLines := by rw [hkept]
      _ = rustLines B := flatMap_rustLines_splitNl B

/-! ### String folding used by the patch builder -/

theorem str_foldl_join : ∀ (l : List String) (acc : String),
    List.foldl (fun a b => a ++ b) acc l = acc ++ String.join l := by
  intro l
  induction l with
  | nil => intro acc; rw [List.foldl_nil]; exact (String.append_empty acc).symm
  | cons a t ih =>
    intro acc
    rw [List.foldl_cons]
    rw [ih (acc ++ a)]
    have hj : String.join (a :: t) = a ++ String.join t := by
      show List.foldl (fun a b => a ++ b) ("" ++ a) t = a ++ String.join t
      rw [String.empty_append, ih a]
    rw [hj, String.append_assoc]

theorem foldl_append_join (g : DiffLine → String) :
    ∀ (l : List DiffLine) (acc : String),
      List.foldl (fun patch d => patch ++ g d) acc l = acc ++ String.join (l.map g) := by
  intro l
  induction l with
  | nil => intro acc; rw [List.foldl_nil, List.map_nil]; exact (String.append_empty acc).symm
  | cons d t ih =>
    intro acc
    rw [List.foldl_cons, ih, List.map_cons]
    have hj : String.join (g d :: t.map g) = g d ++ String.join (t.map g) := by
      show List.foldl (fun a b => a ++ b) ("" ++ g d) (t.map g) = _
      rw [String.empty_append, str_foldl_join]
    rw [hj, String.append_assoc]

/-- The enumerate-and-filter selection of `generate_patch` is the
inclusive index slice `[start, stop]` of the entry list. -/
theorem enumFrom_filter_range (s e : Nat) :
    ∀ (l : List DiffLine) (n : Nat),
      ((l.enumFrom n).filter (fun p => s ≤ p.1 && p.1 ≤ e)).map Prod.snd
        = (l.take (e + 1 - n)).drop (s - n) := by
  intro l
  induction l with
  | nil => intro n; simp
  | cons a t ih =>
    intro n
    rw [show (a :: t).enumFrom n = (n, a) :: t.enumFrom (n + 1) from rfl, List.filter_cons]
    by_cases he : n ≤ e
    · by_cases hs : s ≤ n
      · rw [if_pos (by simp [hs, he])]
        rw [List.map_cons, ih (n + 1)]
        rw [show s - (n + 1) = 0 from by omega, show s - n = 0 from by omega,
          show e + 1 - n = (e + 1 - (n + 1)) + 1 from by omega]
        rw [List.take_succ_cons]
        simp [List.drop_zero]
      · rw [if_neg (by simp [hs])]
        rw [ih (n + 1)]
        rw [show e + 1 - n = (e + 1 - (n + 1)) + 1 from by omega,
          show s - n = (s - (n + 1)) + 1 from by omega,
          List.take_succ_cons, List.drop_succ_cons]
    · rw [if_neg (by simp [he])]
      rw [ih (n + 1)]
      rw [show e + 1 - (n + 1) = 0 from by omega, show e + 1 - n = 0 from by omega]
      simp

/-- C2: with no range, the patch is exactly the two header lines followed
by one body line per model entry, in model order, each formed of the
status character (space, minus, plus), the entry text and a newline. -/
theorem generate_patch_no_range (src tgt : String) (model : List DiffLine) :
    generate_patch src tgt model none
      = ("--- " ++ src ++ "\n") ++ ("+++ " ++ tgt ++ "\n")
          ++ String.join (model.map (fun d =>
              (match d.tag with
               | ChangeTag.equal => " "
               | ChangeTag.delete => "-"
               | ChangeTag.insert => "+") ++ d.content ++ "\n")) := by
  have hfun : (fun d : DiffLine => tagMark d.tag ++ d.content ++ "\n")
      = (fun d : DiffLine =>
          (match d.tag with
           | ChangeTag.equal => " "
           | ChangeTag.delete => "-"
           | ChangeTag.insert => "+") ++ d.content ++ "\n") := by
    funext d; cases d.tag <;> rfl
  calc generate_patch src tgt model none
      = List.foldl (fun patch d => patch ++ (tagMark d.tag ++ d.content ++ "\n"))
          (("--- " ++ src ++ "\n") ++ ("+++ " ++ tgt ++ "\n")) model := rfl
    _ = ("--- " ++ src ++ "\n") ++ ("+++ " ++ tgt ++ "\n")
          ++ String.join (model.map (fun d => tagMark d.tag ++ d.content ++ "\n")) :=
      foldl_append_join _ model _
    _ = _ := by rw [hfun]

/-- C10: `generate_patch` is a total function of an arbitrary range pair,
and its body holds exactly the entries at indices `i` with
`start ≤ i ≤ stop` and `i < len(model)`, in index order — the inclusive
slice `drop start (take (stop+1) model)` — with no out-of-bounds access
possible. -/
theorem generate_patch_range_slice (src tgt : String) (model : List DiffLine) (s e : Nat) :
    generate_patch src tgt model (some (s, e))
      = ("--- " ++ src ++ "\n") ++ ("+++ " ++ tgt ++ "\n")
          ++ String.join (((model.take (e + 1)).drop s).map
              (fun d => tagMark d.tag ++ d.content ++ "\n")) := by
  have hsel : ((model.enum).filter (fun p => s ≤ p.1 && p.1 ≤ e)).map Prod.snd
      = (model.take (e + 1)).drop s := by
    have h := enumFrom_filter_range s e model 0
    simpa using h
  calc generate_patch src tgt model (some (s, e))
      = List.foldl (fun patch d => patch ++ (tagMark d.tag ++ d.content ++ "\n"))
          (("--- " ++ src ++ "\n") ++ ("+++ " ++ tgt ++ "\n"))
          (((model.enum).filter (fun p => s ≤ p.1 && p.1 ≤ e)).map Prod.snd) := rfl
    _ = List.foldl (fun patch d => patch ++ (tagMark d.tag ++ d.content ++ "\n"))
          (("--- " ++ src ++ "\n") ++ ("+++ " ++ tgt ++ "\n"))
          ((model.take (e + 1)).drop s) := by rw [hsel]
    _ = _ := foldl_append_join _ _ _

/-- C9: when the range selects no entry index of the model, the patch is
exactly the two header lines and nothing else. -/
theorem generate_patch_empty_range (src tgt : String) (model : List DiffLine) (s e : Nat)
    (h : ∀ i, i < model.length → ¬(s ≤ i ∧ i ≤ e)) :
    generate_patch src tgt model (some (s, e))
      = ("--- " ++ src ++ "\n") ++ ("+++ " ++ tgt ++ "\n") := by
  have hnil : (model.take (e + 1)).drop s = [] := by
    apply List.eq_nil_of_length_eq_zero
    have hc : ¬ (s < min (e + 1) model.length) := by
      intro hlt
      have h1 : s < e + 1 := lt_of_lt_of_le hlt (min_le_left _ _)
      have h2 : s < model.length := lt_of_lt_of_le hlt (min_le_right _ _)
      exact h s h2 ⟨Nat.le_refl s, by omega⟩
    simp only [List.length_drop, List.length_take]
    omega
  have hsel : ((model.enum).filter (fun p => s ≤ p.1 && p.1 ≤ e)).map Prod.snd
      = (model.take (e + 1)).drop s := by
    have hr := enumFrom_filter_range s e model 0
    simpa using hr
  calc generate_patch src tgt model (some (s, e))
      = List.foldl (fun patch d => patch ++ (tagMark d.tag ++ d.content ++ "\n"))
          (("--- " ++ src ++ "\n") ++ ("+++ " ++ tgt ++ "\n"))
          (((model.enum).filter (fun p => s ≤ p.1 && p.1 ≤ e)).map Prod.snd) := rfl
    _ = List.foldl (fun patch d => patch ++ (tagMark d.tag ++ d.content ++ "\n"))
          (("--- " ++ src ++ "\n") ++ ("+++ " ++ tgt ++ "\n")) ([] : List DiffLine) := by
        rw [hsel, hnil]
    _ = ("--- " ++ src ++ "\n") ++ ("+++ " ++ tgt ++ "\n") := rfl

/-- Witness for C9 at a concrete input: a one-entry model with the range
`(2, 5)` entirely past its end. -/
theorem generate_patch_empty_range_witness :
    (∀ i, i < ([⟨ChangeTag.equal, "x"⟩] : List DiffLine).length → ¬(2 ≤ i ∧ i ≤ 5))
    ∧ generate_patch "a.txt" "b.txt" [⟨ChangeTag.equal, "x"⟩] (some (2, 5))
        = ("--- " ++ "a.txt" ++ "\n") ++ ("+++ " ++ "b.txt" ++ "\n") :=
  ⟨by decide, generate_patch_empty_range "a.txt" "b.txt" [⟨ChangeTag.equal, "x"⟩] 2 5 (by decide)⟩

/-! ### Regeneration of the diff model -/

/-- Counterexample to C3 as stated: a successful regeneration leaves
`cursor_position`, `selection_start` and `selection_end` untouched — only
`scroll_offset` is reset.  Evaluated at a scrolled, anchored session. -/
theorem regenerate_diff_no_cursor_reset_cex :
    (regenerate_diff sampleApp (.ok "a\n") (.ok "b\n")).2 = .ok ()
    ∧ (regenerate_diff sampleApp (.ok "a\n") (.ok "b\n")).1.scroll_offset = 0
    ∧ (regenerate_diff sampleApp (.ok "a\n") (.ok "b\n")).1.cursor_position = 3
    ∧ (regenerate_diff sampleApp (.ok "a\n") (.ok "b\n")).1.selection_start = some 1
    ∧ (regenerate_diff sampleApp (.ok "a\n") (.ok "b\n")).1.selection_end = some 2
    ∧ ¬((regenerate_diff sampleApp (.ok "a\n") (.ok "b\n")).1.cursor_position = 0
        ∧ (regenerate_diff sampleApp (.ok "a\n") (.ok "b\n")).1.selection_start = none
        ∧ (regenerate_diff sampleApp (.ok "a\n") (.ok "b\n")).1.selection_end = none) := by
  refine ⟨rfl, rfl, rfl, rfl, rfl, fun hcontra => absurd hcontra.1 (by decide)⟩

/-- C3 (amended): a successful regeneration wholly replaces `diff_lines`
with the diff of the newly read contents and resets `scroll_offset` to 0;
`cursor_position`, `selection_start` and `selection_end` are unchanged. -/
theorem regenerate_diff_success (app : App) (source_content target_content : String) :
    regenerate_diff app (.ok source_content) (.ok target_content)
      = ({ app with
            diff_lines := generate_diff source_content target_content,
            scroll_offset := 0 }, .ok ())
    ∧ (regenerate_diff app (.ok source_content) (.ok target_content)).1.cursor_position
        = app.cursor_position
    ∧ (regenerate_diff app (.ok source_content) (.ok target_content)).1.selection_start
        = app.selection_start
    ∧ (regenerate_diff app (.ok source_content) (.ok target_content)).1.selection_end
        = app.selection_end :=
  ⟨rfl, rfl, rfl, rfl⟩

/-- C4: when either read fails, the failed call leaves every session field
exactly as it was — the model, scroll, cursor and selection anchors. -/
theorem regenerate_diff_error_atomic (app : App) (readSource readTarget : Except String String)
    (e : String) (h : (regenerate_diff app readSource readTarget).2 = .error e) :
    (regenerate_diff app readSource readTarget).1.diff_lines = app.diff_lines
    ∧ (regenerate_diff app readSource readTarget).1.scroll_offset = app.scroll_offset
    ∧ (regenerate_diff app readSource readTarget).1.cursor_position = app.cursor_position
    ∧ (regenerate_diff app readSource readTarget).1.selection_start = app.selection_start
    ∧ (regenerate_diff app readSource readTarget).1.selection_end = app.selection_end := by
  cases readSource with
  | error e2 => exact ⟨rfl, rfl, rfl, rfl, rfl⟩
  | ok source_content =>
    cases readTarget with
    | error e2 => exact ⟨rfl, rfl, rfl, rfl, rfl⟩
    | ok target_content => exact absurd h (by simp [regenerate_diff])

/-- Witness for C4: a failing source read at a concrete session. -/
theorem regenerate_diff_error_atomic_witness :
    (regenerate_diff sampleApp (.error "boom") (.ok "b\n")).2 = .error "boom"
    ∧ (regenerate_diff sampleApp (.error "boom") (.ok "b\n")).1.diff_lines
        = sampleApp.diff_lines
    ∧ (regenerate_diff sampleApp (.error "boom") (.ok "b\n")).1.scroll_offset
        = sampleApp.scroll_offset
    ∧ (regenerate_diff sampleApp (.error "boom") (.ok "b\n")).1.cursor_position
        = sampleApp.cursor_position
    ∧ (regenerate_diff sampleApp (.error "boom") (.ok "b\n")).1.selection_start
        = sampleApp.selection_start
    ∧ (regenerate_diff sampleApp (.error "boom") (.ok "b\n")).1.selection_end
        = sampleApp.selection_end := by
  have h := regenerate_diff_error_atomic sampleApp (.error "boom") (.ok "b\n") "boom" rfl
  exact ⟨rfl, h.1, h.2.1, h.2.2.1, h.2.2.2.1, h.2.2.2.2⟩

/-! ### Startup dispatch -/

/-- C5 (code behavior): with zero or one path argument, `main` prints a
message and exits with a non-zero code instead of starting an interactive
selection session.  The repository's own CLI tests expect the interactive
session the claim describes. -/
theorem main_exits_without_two_paths (s t : String) (v w : Except String Unit) :
    mainDispatch none none v w
      = .exitError "No files specified. Usage: lazydiff <source> <target>"
    ∧ mainDispatch (some s) none (.ok ()) w
      = .exitError ("Source file: " ++ s ++ ", target file not specified")
    ∧ mainDispatch none (some t) v (.ok ())
      = .exitError ("Target file: " ++ t ++ ", source file not specified") :=
  ⟨rfl, rfl, rfl⟩

/-! ### Scroll bounds in DiffView -/

theorem scrollStep_diff_lines (v : Nat) (app : App) (i : ScrollInput) :
    (scrollStep v app i).diff_lines = app.diff_lines := by
  cases i with
  | up =>
    show (scroll_up app).diff_lines = app.diff_lines
    unfold scroll_up
    split <;> rfl
  | down =>
    show (scroll_down app v).diff_lines = app.diff_lines
    unfold scroll_down
    split <;> rfl

theorem scrollStep_bound (v : Nat) (app : App) (i : ScrollInput)
    (h : app.scroll_offset ≤ app.diff_lines.length - v) :
    (scrollStep v app i).scroll_offset ≤ (scrollStep v app i).diff_lines.length - v := by
  rw [scrollStep_diff_lines]
  cases i with
  | up =>
    show (scroll_up app).scroll_offset ≤ app.diff_lines.length - v
    unfold scroll_up
    split
    · show app.scroll_offset - 1 ≤ app.diff_lines.length - v
      omega
    · exact h
  | down =>
    show (scroll_down app v).scroll_offset ≤ app.diff_lines.length - v
    unfold scroll_down
    split
    · rename_i hlt
      show app.scroll_offset + 1 ≤ app.diff_lines.length - v
      omega
    · exact h

theorem runScroll_diff_lines (v : Nat) :
    ∀ (inputs : List ScrollInput) (app : App),
      (runScroll v app inputs).diff_lines = app.diff_lines := by
  intro inputs
  induction inputs with
  | nil => intro app; rfl
  | cons i t ih =>
    intro app
    show (runScroll v (scrollStep v app i) t).diff_lines = app.diff_lines
    rw [ih, scrollStep_diff_lines]

theorem runScroll_bound (v : Nat) :
    ∀ (inputs : List ScrollInput) (app : App),
      app.scroll_offset ≤ app.diff_lines.length - v →
      (runScroll v app inputs).scroll_offset
        ≤ (runScroll v app inputs).diff_lines.length - v := by
  intro inputs
  induction inputs with
  | nil => intro app h; exact h
  | cons i t ih =>
    intro app h
    exact ih (scrollStep v app i) (scrollStep_bound v app i h)

/-- Counterexample to C6 as stated: at the initial state (scroll offset
0), with three entries and a viewport of two, the asserted lower bound
`scroll_offset + viewport ≥ len(model)` is already false after zero
inputs. -/
theorem scroll_bound_claim_cex :
    freshApp.diff_lines.length > 2
    ∧ freshApp.scroll_offset = 0
    ∧ ¬((runScroll 2 freshApp []).scroll_offset + 2 ≥ freshApp.diff_lines.length) := by
  refine ⟨by decide, rfl, by decide⟩

/-- C6 (amended): after any sequence of up/down inputs from the initial
state, `0 ≤ scroll_offset`; when the model is longer than the viewport,
`scroll_offset + viewport_height ≤ len(model)`, and otherwise
`scroll_offset = 0`. -/
theorem scroll_offset_bound_invariant (app : App) (viewport : Nat)
    (inputs : List ScrollInput) (h0 : app.scroll_offset = 0) :
    0 ≤ (runScroll viewport app inputs).scroll_offset
    ∧ (app.diff_lines.length > viewport →
        (runScroll viewport app inputs).scroll_offset + viewport ≤ app.diff_lines.length)
    ∧ (¬ app.diff_lines.length > viewport →
        (runScroll viewport app inputs).scroll_offset = 0) := by
  have hb : (runScroll viewport app inputs).scroll_offset
      ≤ (runScroll viewport app inputs).diff_lines.length - viewport :=
    runScroll_bound viewport inputs app (by omega)
  rw [runScroll_diff_lines] at hb
  exact ⟨Nat.zero_le _, fun hgt => by omega, fun hle => by omega⟩

/-- Witness for C6 at a concrete session: three entries, viewport two,
inputs down-down-up. -/
theorem scroll_offset_bound_invariant_witness :
    freshApp.scroll_offset = 0
    ∧ (runScroll 2 freshApp [.down, .down, .up]).scroll_offset + 2
        ≤ freshApp.diff_lines.length := by
  refine ⟨rfl, ?_⟩
  exact (scroll_offset_bound_invariant freshApp 2 [.down, .down, .up] rfl).2.1 (by decide)

/-! ### Selection range and anchors -/

/-- C7: the resolved range is `some (min, max)` of the two anchors when
both are set, `none` when either is unset, and is symmetric in the order
the anchors were placed. -/
theorem get_selection_range_min_max (app : App) (a b : Nat) :
    get_selection_range { app with selection_start := some a, selection_end := some b }
      = some (min a b, max a b)
    ∧ get_selection_range { app with selection_start := none } = none
    ∧ get_selection_range { app with selection_end := none } = none
    ∧ get_selection_range { app with selection_start := some a, selection_end := some b }
      = get_selection_range { app with selection_start := some b, selection_end := some a } := by
  refine ⟨rfl, ?_, ?_, ?_⟩
  · cases app.selection_end <;> rfl
  · cases app.selection_start <;> rfl
  · show some (min a b, max a b) = some (min b a, max b a)
    rw [Nat.min_comm, Nat.max_comm]

/-- C8: in SelectionMode the first anchor toggle sets both anchors to the
cursor; when an anchor is already set, a further toggle changes only the
status message — anchors, cursor, scroll and mode are untouched. -/
theorem toggle_selection_anchor_spec (app : App) (_hm : app.mode = AppMode.SelectionMode) :
    (app.selection_start = none →
      toggle_selection_anchor app
        = { app with
            selection_start := some app.cursor_position,
            selection_end := some app.cursor_position,
            status_message :=
              some ("Selection start: line " ++ toString app.cursor_position) })
    ∧ (∀ s0, app.selection_start = some s0 →
        (toggle_selection_anchor app).selection_start = app.selection_start
        ∧ (toggle_selection_anchor app).selection_end = app.selection_end
        ∧ (toggle_selection_anchor app).cursor_position = app.cursor_position
        ∧ (toggle_selection_anchor app).scroll_offset = app.scroll_offset
        ∧ (toggle_selection_anchor app).mode = app.mode
        ∧ (toggle_selection_anchor app).diff_lines = app.diff_lines
        ∧ (toggle_selection_anchor app).source_file = app.source_file
        ∧ (toggle_selection_anchor app).target_file = app.target_file) := by
  constructor
  · intro hnone
    unfold toggle_selection_anchor
    rw [hnone]
  · intro s0 hsome
    unfold toggle_selection_anchor
    rw [hsome]
    exact ⟨rfl, rfl, rfl, rfl, rfl, rfl, rfl, rfl⟩

/-- Witness for C8: the first toggle at an anchorless SelectionMode state,
and a second toggle at an anchored one. -/
theorem toggle_selection_anchor_spec_witness :
    (toggle_selection_anchor selApp).selection_start = some 2
    ∧ (toggle_selection_anchor selApp).selection_end = some 2
    ∧ (toggle_selection_anchor selAppAnchored).selection_start = some 2
    ∧ (toggle_selection_anchor selAppAnchored).selection_end = some 1
    ∧ (toggle_selection_anchor selAppAnchored).cursor_position = 1
    ∧ (toggle_selection_anchor selAppAnchored).mode = AppMode.SelectionMode := by
  have h1 := (toggle_selection_anchor_spec selApp rfl).1 rfl
  have h2 := (toggle_selection_anchor_spec selAppAnchored rfl).2 2 rfl
  refine ⟨?_, ?_, ?_, ?_, ?_, ?_⟩
  · rw [h1]; rfl
  · rw [h1]; rfl
  · rw [h2.1]; rfl
  · rw [h2.2.1]; rfl
  · rw [h2.2.2.1]; rfl
  · rw [h2.2.2.2.2.1]; rfl

end LazyDiff
